import Mathlib

/-!
Verification of the workoastpartner portal's candidate reconciliation,
duplicate-detection, pin-overlay and contact-enrichment logic.

The TypeScript services are shallowly embedded as pure Lean functions.
External collaborators (the Manatal ATS, the RocketReach enrichment
provider, `crypto.randomUUID`, clocks) are modelled as explicit oracle
parameters; JavaScript string truthiness (`""`, `null`, `undefined` are
falsy) is made explicit through small helper functions.
-/

namespace Portal

/-- Truthiness of a JS string: the empty string is falsy. -/
def strTruthy (s : String) : Bool :=
  if s = "" then false else true

/-- Truthiness of an optional JS string: `null`/`undefined` and `""` are falsy. -/
def optTruthy : Option String → Bool
  | none => false
  | some s => strTruthy s

/-- JS `a || b` where `a` is an optional string and `b` a string default. -/
def jsOrOpt (a : Option String) (b : String) : String :=
  match a with
  | none => b
  | some s => if s = "" then b else s

/-- JS `a || b` on two plain strings. -/
def jsOrStr (a b : String) : String :=
  if a = "" then b else a

/-- JS word character for the `\w` regex class. -/
def isWordChar (c : Char) : Bool :=
  c.isAlphanum || c == '_'

/-- JS whitespace for the regex `\s` class and `String.prototype.trim`
(ASCII fragment). -/
def isJsSpace (c : Char) : Bool :=
  c == ' ' || c == '\t' || c == '\n' || c == '\r'

/-- JS `String.prototype.trim` (kernel-reducible embedding). -/
def jsTrim (s : String) : String :=
  String.mk (((s.toList.dropWhile isJsSpace).reverse.dropWhile isJsSpace).reverse)

/-- JS `String.prototype.toLowerCase` (ASCII fragment, kernel-reducible). -/
def jsToLower (s : String) : String :=
  String.mk (s.toList.map Char.toLower)

/-- JS strict equality `===` on two optional strings, with `null` and
`undefined` collapsed into `none` (so `none === none` is true, as for two
`null`s or two `undefined`s in the source). -/
def jsEqOpt (a b : Option String) : Bool :=
  a == b

/-! ## RocketReach service (`src/services/rocketReachService.ts`) -/

/-- The string statuses declared by the `RocketReachProfile` interface. -/
inductive RRStatus
  | complete
  | searching
  | progress
  | failed
  | waiting
  | notQueued
  deriving DecidableEq, Repr

/-- Wire representation of a status, used in error messages. -/
def rrStatusShow : RRStatus → String
  | .complete => "complete"
  | .searching => "searching"
  | .progress => "progress"
  | .failed => "failed"
  | .waiting => "waiting"
  | .notQueued => "not queued"

/-- The `status` field of a RocketReach response: normally one of the
declared string statuses, but error-shaped responses carry a numeric
HTTP-style status code instead (the source checks `typeof === 'number'`). -/
inductive RRStatusField
  | str (s : RRStatus)
  | num (n : Nat)
  deriving DecidableEq, Repr

/-- Interpolation of the status field into an error message. -/
def statusFieldShow : RRStatusField → String
  | .str s => rrStatusShow s
  | .num n => toString n

/-- An entry of the `emails` list of a RocketReach profile. -/
structure RREmail where
  email : String
  type : String
  deriving DecidableEq, Repr

/-- An entry of the `phones` list of a RocketReach profile. -/
structure RRPhone where
  number : String
  deriving DecidableEq, Repr

/-- A RocketReach profile response. `emails`/`phones` are `none` when the
field is absent from the JSON (distinct from an empty list, which the
source's `!profile.emails` check treats as truthy). -/
structure RRProfile where
  id : Nat
  status : RRStatusField
  emails : Option (List RREmail) := none
  phones : Option (List RRPhone) := none
  error : Option String := none
  detail : Option String := none
  message : Option String := none
  deriving DecidableEq, Repr

/-- Result record of `lookupContactInfo`: either an `error` message or an
`email`/`phone` pair (possibly empty strings). -/
structure RRResult where
  email : Option String := none
  phone : Option String := none
  error : Option String := none
  deriving DecidableEq, Repr

/-- Embedding of `extractContactData`: best email prefers an entry typed
`personal`, then `professional`, then the first entry; phone is always the
first entry; if neither yields a value the distinct
"no public contact info found" outcome is returned. -/
def extractContactData (profile : RRProfile) : RRResult :=
  let foundEmail :=
    match profile.emails with
    | some (e0 :: rest) =>
        let es := e0 :: rest
        let personal := es.find? fun e => e.type == "personal"
        let professional := es.find? fun e => e.type == "professional"
        ((personal.orElse fun _ => professional).getD e0).email
    | _ => ""
  let foundPhone :=
    match profile.phones with
    | some (p0 :: _) => p0.number
    | _ => ""
  if foundEmail = "" ∧ foundPhone = "" then
    { error := some "Profile processed, but no public contact info found." }
  else
    { email := some foundEmail, phone := some foundPhone }

/-- One poll attempt's observable outcome, as resolved by
`pollForCompletion`'s response-shape handling: the edge-function invocation
errored, no profile matching the id was found in the payload, or a profile
was found. -/
inductive PollStep
  | fnError
  | noProfile
  | profile (p : RRProfile)

/-- Poll budget from the source (`MAX_RETRIES = 10`). -/
def MAX_RETRIES : Nat := 10

/-- Fixed delay before each poll attempt (`POLL_INTERVAL_MS = 3000`). -/
def POLL_INTERVAL_MS : Nat := 3000

/-- Terminal check from the source:
`['complete', 'failed', 'not queued'].includes(updatedProfile.status)`. -/
def isTerminalStatus (s : RRStatusField) : Bool :=
  s == .str .complete || s == .str .failed || s == .str .notQueued

/-- Whether a poll attempt yields a profile in a terminal status. -/
def stepTerminal : PollStep → Bool
  | .profile p => isTerminalStatus p.status
  | _ => false

/-- Observable outcome of the polling loop: its result, the number of poll
attempts actually made, and the total time slept (the source sleeps
`POLL_INTERVAL_MS` before every status check). -/
structure PollOutcome where
  result : Except String RRProfile
  attempts : Nat
  totalDelayMs : Nat
  deriving Repr

/-- Recursive core of `pollForCompletion`. `steps i` is the outcome of the
`i`-th poll attempt (0-based); `fuel` counts remaining attempts, `i` the
attempts already made, `delayMs` the time already slept. -/
def pollAux (steps : Nat → PollStep) : Nat → Nat → Nat → PollOutcome
  | 0, i, delayMs => ⟨.error "Polling timed out before completion.", i, delayMs⟩
  | fuel + 1, i, delayMs =>
      let delayMs := delayMs + POLL_INTERVAL_MS
      match steps i with
      | .fnError => pollAux steps fuel (i + 1) delayMs
      | .noProfile => pollAux steps fuel (i + 1) delayMs
      | .profile p =>
          if isTerminalStatus p.status then ⟨.ok p, i + 1, delayMs⟩
          else pollAux steps fuel (i + 1) delayMs

/-- Embedding of `pollForCompletion`: up to `MAX_RETRIES` attempts, sleeping
`POLL_INTERVAL_MS` before each status check; an invocation error is swallowed
and the loop continues; a profile in a terminal status is returned at once;
exhaustion throws "Polling timed out before completion.". -/
def pollForCompletion (steps : Nat → PollStep) : PollOutcome :=
  pollAux steps MAX_RETRIES 0 0

/-- The initial response of the `rocketreach-proxy` lookup invocation. -/
inductive LookupInit
  | fnError (msg : String)
  | emptyResponse
  | profile (p : RRProfile)

/-- Error-shaped response check from the source:
`profile.status && typeof profile.status === 'number' && profile.status >= 400`. -/
def isErrorStatus : RRStatusField → Bool
  | .num n => decide (400 ≤ n)
  | .str _ => false

/-- Embedding of `lookupContactInfo`. `init` is the initial proxy response,
`steps` the poll oracle, `stringify` models `JSON.stringify` for the
generic error message's fallback text. -/
def lookupContactInfo (linkedinUrl : String) (init : LookupInit)
    (steps : Nat → PollStep) (stringify : RRProfile → String) : RRResult :=
  if linkedinUrl = "" then { error := some "LinkedIn URL is required." }
  else
    match init with
    | .fnError msg => { error := some ("Connection Error: " ++ msg) }
    | .emptyResponse =>
        { error := some "No data returned from lookup service (Empty Response)." }
    | .profile profile =>
        if optTruthy profile.error || optTruthy profile.detail
            || isErrorStatus profile.status then
          let msg := jsOrOpt profile.error
            (jsOrOpt profile.detail (jsOrOpt profile.message (stringify profile)))
          match profile.status with
          | .num 403 =>
              { error := some "Access Denied (403). Verify RocketReach Credits or API Key." }
          | .num 401 =>
              { error := some "Unauthorized (401). Invalid RocketReach API Key." }
          | .num 404 =>
              { error := some "Profile not found in RocketReach database." }
          | st =>
              { error := some ("API Error [" ++ statusFieldShow st ++ "]: " ++ msg) }
        else
          let polled : Except String RRProfile :=
            if profile.status == .str .searching || profile.status == .str .progress
                || profile.status == .str .waiting then
              (pollForCompletion steps).result
            else .ok profile
          match polled with
          | .error m => { error := some m }
          | .ok current =>
              if current.status == .str .failed then
                { error := some "RocketReach lookup failed to resolve data." }
              else if current.status != .str .complete
                  && current.status != .str .notQueued
                  && current.emails == none && current.phones == none then
                { error := some ("Lookup incomplete (Status: "
                    ++ statusFieldShow current.status ++ "). Try again later.") }
              else
                extractContactData current

/-! ## Lemmas about the polling loop -/

theorem pollAux_timeout (steps : Nat → PollStep) :
    ∀ fuel i d, (∀ k, k < fuel → stepTerminal (steps (i + k)) = false) →
      pollAux steps fuel i d =
        ⟨.error "Polling timed out before completion.", i + fuel,
          d + fuel * POLL_INTERVAL_MS⟩ := by
  intro fuel
  induction fuel with
  | zero => intro i d _; simp [pollAux]
  | succ n ih =>
      intro i d h
      have h0 : stepTerminal (steps i) = false := by
        simpa using h 0 (Nat.succ_pos n)
      have hrest : ∀ k, k < n → stepTerminal (steps (i + 1 + k)) = false := by
        intro k hk
        have := h (k + 1) (by omega)
        simpa [Nat.add_assoc, Nat.add_comm 1 k] using this
      unfold pollAux
      cases hs : steps i with
      | fnError =>
          dsimp only
          rw [ih (i + 1) (d + POLL_INTERVAL_MS) hrest]
          simp only [PollOutcome.mk.injEq, true_and]
          constructor
          · omega
          · ring
      | noProfile =>
          dsimp only
          rw [ih (i + 1) (d + POLL_INTERVAL_MS) hrest]
          simp only [PollOutcome.mk.injEq, true_and]
          constructor
          · omega
          · ring
      | profile p =>
          have hterm : isTerminalStatus p.status = false := by
            simpa [stepTerminal, hs] using h0
          dsimp only
          rw [hterm]
          simp only [Bool.false_eq_true, if_false]
          rw [ih (i + 1) (d + POLL_INTERVAL_MS) hrest]
          simp only [PollOutcome.mk.injEq, true_and]
          constructor
          · omega
          · ring

theorem pollAux_hit (steps : Nat → PollStep) :
    ∀ fuel j i d p, j < fuel → steps (i + j) = .profile p →
      isTerminalStatus p.status = true →
      (∀ k, k < j → stepTerminal (steps (i + k)) = false) →
      pollAux steps fuel i d =
        ⟨.ok p, i + j + 1, d + (j + 1) * POLL_INTERVAL_MS⟩ := by
  intro fuel
  induction fuel with
  | zero => intro j i d p hj; omega
  | succ n ih =>
      intro j i d p hj hstep hterm hpre
      cases j with
      | zero =>
          unfold pollAux
          have hs : steps i = .profile p := by simpa using hstep
          rw [hs]
          dsimp only
          rw [hterm]
          simp
      | succ m =>
          have h0 : stepTerminal (steps i) = false := by
            simpa using hpre 0 (Nat.succ_pos m)
          have hstep2 : steps (i + 1 + m) = .profile p := by
            rw [show i + 1 + m = i + (m + 1) by omega]; exact hstep
          have hpre2 : ∀ k, k < m → stepTerminal (steps (i + 1 + k)) = false := by
            intro k hk
            have := hpre (k + 1) (by omega)
            simpa [show i + (k + 1) = i + 1 + k by omega] using this
          unfold pollAux
          cases hs : steps i with
          | fnError =>
              dsimp only
              rw [ih m (i + 1) (d + POLL_INTERVAL_MS) p (by omega) hstep2 hterm hpre2]
              simp only [PollOutcome.mk.injEq, true_and]
              constructor
              · omega
              · ring
          | noProfile =>
              dsimp only
              rw [ih m (i + 1) (d + POLL_INTERVAL_MS) p (by omega) hstep2 hterm hpre2]
              simp only [PollOutcome.mk.injEq, true_and]
              constructor
              · omega
              · ring
          | profile q =>
              have hq : isTerminalStatus q.status = false := by
                simpa [stepTerminal, hs] using h0
              dsimp only
              rw [hq]
              simp only [Bool.false_eq_true, if_false]
              rw [ih m (i + 1) (d + POLL_INTERVAL_MS) p (by omega) hstep2 hterm hpre2]
              simp only [PollOutcome.mk.injEq, true_and]
              constructor
              · omega
              · ring

theorem pollAux_attempts_le (steps : Nat → PollStep) :
    ∀ fuel i d, (pollAux steps fuel i d).attempts ≤ i + fuel := by
  intro fuel
  induction fuel with
  | zero => intro i d; simp [pollAux]
  | succ n ih =>
      intro i d
      unfold pollAux
      cases steps i with
      | fnError => exact le_trans (ih (i + 1) _) (by omega)
      | noProfile => exact le_trans (ih (i + 1) _) (by omega)
      | profile p =>
          dsimp only
          by_cases hterm : isTerminalStatus p.status
          · rw [if_pos hterm]
            dsimp only
            omega
          · rw [Bool.eq_false_iff.mpr hterm]
            simp only [Bool.false_eq_true, if_false]
            exact le_trans (ih (i + 1) _) (by omega)

/-- C4: `pollForCompletion` makes at most 10 attempts; with a fixed 3-second
delay before each status check; per-attempt transport errors (`PollStep.fnError`)
are swallowed (they are non-terminal steps and the loop continues); the loop
returns the profile at the first attempt whose status is complete, failed or
not queued; if no attempt among the 10 is terminal it fails with the
"polling timed out" error after exactly 10 attempts (30 seconds of delay);
and through `lookupContactInfo`, an initial "searching" status that never
turns terminal yields that same polling-timeout error. -/
theorem c4_poll_budget (steps : Nat → PollStep) :
    ((pollForCompletion steps).attempts ≤ MAX_RETRIES) ∧
    ((∀ i, i < MAX_RETRIES → stepTerminal (steps i) = false) →
      pollForCompletion steps =
        ⟨.error "Polling timed out before completion.", MAX_RETRIES,
          MAX_RETRIES * POLL_INTERVAL_MS⟩) ∧
    (∀ j p, j < MAX_RETRIES → steps j = .profile p →
      isTerminalStatus p.status = true →
      (∀ k, k < j → stepTerminal (steps k) = false) →
      pollForCompletion steps = ⟨.ok p, j + 1, (j + 1) * POLL_INTERVAL_MS⟩) ∧
    (∀ (url : String) (p : RRProfile) (stringify : RRProfile → String),
      url ≠ "" → p.error = none → p.detail = none → p.status = .str .searching →
      (∀ i, i < MAX_RETRIES → stepTerminal (steps i) = false) →
      lookupContactInfo url (.profile p) steps stringify =
        { error := some "Polling timed out before completion." }) := by
  refine ⟨?_, ?_, ?_, ?_⟩
  · simpa [pollForCompletion] using pollAux_attempts_le steps MAX_RETRIES 0 0
  · intro h
    have := pollAux_timeout steps MAX_RETRIES 0 0 (by simpa using h)
    simpa [pollForCompletion] using this
  · intro j p hj hstep hterm hpre
    have := pollAux_hit steps MAX_RETRIES j 0 0 p hj (by simpa using hstep) hterm
      (by simpa using hpre)
    simpa [pollForCompletion] using this
  · intro url p stringify hurl herr hdet hstat h
    have hto := pollAux_timeout steps MAX_RETRIES 0 0 (by simpa using h)
    simp only [lookupContactInfo, if_neg hurl, herr, hdet, hstat, optTruthy,
      isErrorStatus, pollForCompletion]
    simp [hto]

/-- C4 witness: a poll oracle that always reports "searching" exhausts the
budget with the timeout error after exactly 10 attempts and 30 seconds. -/
theorem c4_witness :
    pollForCompletion
        (fun _ => .profile ⟨1, .str .searching, none, none, none, none, none⟩) =
      ⟨.error "Polling timed out before completion.", MAX_RETRIES,
        MAX_RETRIES * POLL_INTERVAL_MS⟩ := by
  exact (c4_poll_budget _).2.1 (fun i _ => rfl)

/-- C5: in a successful terminal state, empty email and phone lists yield the
distinct "no public contact info found" outcome (not an error category, not a
timeout); a nonempty email list yields the entry typed personal, else
professional, else the first; a nonempty phone list yields the first phone
number; and through the full lookup workflow a complete (or not-queued)
profile with empty lists produces exactly that outcome. -/
theorem c5_extract_contact (p : RRProfile) :
    (p.emails.getD [] = [] → p.phones.getD [] = [] →
      extractContactData p =
        { error := some "Profile processed, but no public contact info found." }) ∧
    (∀ (e0 : RREmail) (rest : List RREmail),
      p.emails = some (e0 :: rest) →
      ∀ pick, pick = ((((e0 :: rest).find? fun e => e.type == "personal").orElse
          fun _ => (e0 :: rest).find? fun e => e.type == "professional").getD e0) →
      pick.email ≠ "" →
      (extractContactData p).error = none ∧
        (extractContactData p).email = some pick.email) ∧
    (∀ (p0 : RRPhone) (ps : List RRPhone),
      p.phones = some (p0 :: ps) → p0.number ≠ "" →
      (extractContactData p).error = none ∧
        (extractContactData p).phone = some p0.number) ∧
    (∀ (url : String) (steps : Nat → PollStep) (stringify : RRProfile → String),
      url ≠ "" → p.error = none → p.detail = none →
      (p.status = .str .complete ∨ p.status = .str .notQueued) →
      p.emails = some [] → p.phones = some [] →
      lookupContactInfo url (.profile p) steps stringify =
        { error := some "Profile processed, but no public contact info found." }) := by
  refine ⟨?_, ?_, ?_, ?_⟩
  · intro he hp
    have he2 : p.emails = none ∨ p.emails = some [] := by
      cases h : p.emails with
      | none => exact Or.inl rfl
      | some l => right; simp [h] at he; simp [he]
    have hp2 : p.phones = none ∨ p.phones = some [] := by
      cases h : p.phones with
      | none => exact Or.inl rfl
      | some l => right; simp [h] at hp; simp [hp]
    rcases he2 with h1 | h1 <;> rcases hp2 with h2 | h2 <;>
      simp [extractContactData, h1, h2]
  · intro e0 rest he pick hpick hne
    rw [hpick] at hne ⊢
    simp only [extractContactData, he]
    rw [if_neg (by intro hcon; exact hne hcon.1)]
    exact ⟨rfl, rfl⟩
  · intro p0 ps hp hne
    simp only [extractContactData, hp]
    rw [if_neg (by intro hcon; exact hne hcon.2)]
    exact ⟨rfl, rfl⟩
  · intro url steps stringify hurl herr hdet hstat hem hph
    rcases hstat with hstat | hstat <;>
    · simp only [lookupContactInfo, if_neg hurl, herr, hdet, hstat, optTruthy,
        isErrorStatus]
      simp [extractContactData, hem, hph, hstat]

/-- C5 witness: a complete profile with empty contact lists run through the
full lookup yields the "no public contact info found" outcome. -/
theorem c5_witness :
    lookupContactInfo "https://linkedin.com/in/x"
        (.profile ⟨7, .str .complete, some [], some [], none, none, none⟩)
        (fun _ => .fnError) (fun _ => "") =
      { error := some "Profile processed, but no public contact info found." } := by
  exact (c5_extract_contact _).2.2.2 _ _ _ (by decide) rfl rfl (Or.inl rfl) rfl rfl

/-! ## Manatal service (`src/services/manatalService.ts`)

String fields of raw ATS records are flattened so that `""` stands for a
JS-falsy value (`null`, `undefined` or the empty string), matching how the
source only ever tests them with `||` and `!`. -/

/-- Environment of external primitives used by the services. -/
structure Env where
  encodeURIComponent : String → String
  nowISO : String
  randomUUID : Nat → String

/-- An entry of a raw candidate's `social_media` array. -/
structure SocialMediaEntry where
  social_media : String
  social_media_url : String
  deriving DecidableEq, Repr

/-- A raw candidate record as returned by the Manatal API. `social_media` is
`none` when the field is not an array (the source checks `Array.isArray`). -/
structure RawCandidate where
  id : String := ""
  full_name : String := ""
  name : String := ""
  current_position : String := ""
  position_name : String := ""
  address : String := ""
  city : String := ""
  picture : String := ""
  created_at : String := ""
  current_company : String := ""
  email : String := ""
  phone_number : String := ""
  linkedin_url : String := ""
  social_media_links_linkedin : String := ""
  social_media : Option (List SocialMediaEntry) := none
  deriving DecidableEq, Repr

/-- The candidate statuses (`src/types.ts`). -/
inductive CandidateStatus
  | available
  | interviewing
  | hired
  | offer
  deriving DecidableEq, Repr

/-- The `Partial Candidate` shape produced by `mapToCandidate`. `reference`
stays absent for mapped ATS records (the merge effect reads it anyway). -/
structure PartialCandidate where
  id : String
  name : String
  role : String
  location : String
  manatalId : Option String
  status : CandidateStatus
  avatarUrl : String
  addedAt : String
  currentCompany : String
  linkedinUrl : String
  email : String
  phone : String
  visibility : Bool
  reference : Option String := none
  deriving DecidableEq, Repr

/-- Embedding of `mapToCandidate` (the `if (!c) return ⟨⟩` guard of the
source applies only to a `null` argument, which cannot arise at the
modelled call sites: the argument is always drawn from a results list). -/
def mapToCandidate (env : Env) (c : RawCandidate) : PartialCandidate :=
  let mId := jsOrStr c.id "unknown"
  let linkedin0 := jsOrStr c.linkedin_url c.social_media_links_linkedin
  let linkedin :=
    if linkedin0 = "" then
      match c.social_media with
      | some entries =>
          match entries.find? (fun s => jsToLower s.social_media == "linkedin") with
          | some found => found.social_media_url
          | none => linkedin0
      | none => linkedin0
    else linkedin0
  { id := mId
    name := jsOrStr c.full_name (jsOrStr c.name "Unknown Candidate")
    role := jsOrStr c.current_position (jsOrStr c.position_name "Candidate")
    location := jsOrStr c.address (jsOrStr c.city "Unknown")
    manatalId := some mId
    status := .available
    avatarUrl := jsOrStr c.picture
      ("https://ui-avatars.com/api/?name="
        ++ env.encodeURIComponent (jsOrStr c.full_name "User") ++ "&background=random")
    addedAt := jsOrStr c.created_at env.nowISO
    currentCompany := c.current_company
    linkedinUrl := linkedin
    email := c.email
    phone := c.phone_number
    visibility := true }

/-- A Manatal list response (`count` plus a results page). A transport error
or thrown exception is modelled as `none` at the oracle. -/
structure ManatalResponse where
  ok : Bool
  count : Nat
  results : List RawCandidate
  deriving Repr

/-- The field a duplicate-probe strategy matches on. -/
inductive MatchField
  | email
  | phone
  | linkedin
  | name
  deriving DecidableEq, Repr

/-- Result shape of `checkDuplicateCandidate`. -/
structure DuplicateCheckResult where
  isDuplicate : Bool
  matchedBy : Option MatchField
  matchedByLabel : Option String
  existingCandidate : Option PartialCandidate
  deriving Repr

/-- The all-clear result (`noMatch` in the source). -/
def noMatchResult : DuplicateCheckResult := ⟨false, none, none, none⟩

/-- Input fields of the duplicate probe. -/
structure DupCheckInput where
  email : Option String := none
  full_name : Option String := none
  linkedin_url : Option String := none
  phone_number : Option String := none

/-- One probe strategy: matched field, UI label, query parameter, and the
(trimmed) value, `none` when the input field is absent. -/
structure DupStrategy where
  field : MatchField
  label : String
  param : String
  value : Option String
  deriving DecidableEq, Repr

/-- The ordered strategy list of `checkDuplicateCandidate`:
email, phone, linkedin, name. -/
def dupStrategies (data : DupCheckInput) : List DupStrategy :=
  [ ⟨.email, "E-mail", "email", data.email.map jsTrim⟩,
    ⟨.phone, "Telefone", "phone_number", data.phone_number.map jsTrim⟩,
    ⟨.linkedin, "LinkedIn URL", "linkedin_url__icontains",
      data.linkedin_url.map jsTrim⟩,
    ⟨.name, "Nome Completo", "full_name", data.full_name.map jsTrim⟩ ]

/-- A strategy is evaluated unless its value is absent or shorter than 3
characters (`if (!strat.value || strat.value.length < 3) continue`). -/
def stratEligible (s : DupStrategy) : Bool :=
  match s.value with
  | none => false
  | some v => decide (3 ≤ v.length)

/-- Recursive core of `checkDuplicateCandidate`. Besides the result it
returns the trace of fields actually queried against the ATS, in order. -/
def checkDuplicateGo (env : Env) (q : MatchField → Option ManatalResponse) :
    List DupStrategy → DuplicateCheckResult × List MatchField
  | [] => (noMatchResult, [])
  | s :: rest =>
      if stratEligible s then
        match q s.field with
        | none =>
            ((checkDuplicateGo env q rest).1, s.field :: (checkDuplicateGo env q rest).2)
        | some resp =>
            if resp.ok then
              if 0 < resp.count ∧ resp.results ≠ [] then
                (⟨true, some s.field, some s.label,
                    resp.results.head?.map (mapToCandidate env)⟩, [s.field])
              else
                ((checkDuplicateGo env q rest).1,
                  s.field :: (checkDuplicateGo env q rest).2)
            else
              ((checkDuplicateGo env q rest).1,
                s.field :: (checkDuplicateGo env q rest).2)
      else checkDuplicateGo env q rest

/-- Embedding of `checkDuplicateCandidate`: evaluates the four strategies in
order, skipping ineligible ones, swallowing per-strategy query errors, and
short-circuiting on the first strategy whose response carries results. -/
def checkDuplicateCandidate (env : Env) (data : DupCheckInput)
    (q : MatchField → Option ManatalResponse) :
    DuplicateCheckResult × List MatchField :=
  checkDuplicateGo env q (dupStrategies data)

/-- The internal hit condition of the probe loop:
`response.ok && data.count > 0 && data.results?.length > 0`. -/
def stratHits (q : MatchField → Option ManatalResponse) (s : DupStrategy) : Bool :=
  stratEligible s &&
    match q s.field with
    | some resp => resp.ok && (decide (0 < resp.count) && !resp.results.isEmpty)
    | none => false

/-- The claim-level hit condition: an eligible strategy whose query
succeeds and returns at least one result. -/
def queryReturnsResult (q : MatchField → Option ManatalResponse)
    (s : DupStrategy) : Bool :=
  stratEligible s &&
    match q s.field with
    | some resp => resp.ok && !resp.results.isEmpty
    | none => false

theorem stratHits_eq_queryReturnsResult (q : MatchField → Option ManatalResponse)
    (hWf : ∀ f r, q f = some r → r.count = r.results.length) (s : DupStrategy) :
    stratHits q s = queryReturnsResult q s := by
  unfold stratHits queryReturnsResult
  cases hq : q s.field with
  | none => rfl
  | some resp =>
      have hc := hWf s.field resp hq
      cases hres : resp.results with
      | nil => rw [hres] at hc; simp [hc, hres]
      | cons a l => rw [hres] at hc; simp [hc, hres]

theorem checkDuplicateGo_char (env : Env) (q : MatchField → Option ManatalResponse)
    (hit : DupStrategy → Bool) (hhit : ∀ s, hit s = stratHits q s) :
    ∀ strats : List DupStrategy,
      ((checkDuplicateGo env q strats).2
        = ((strats.takeWhile fun s => !hit s).filter stratEligible).map DupStrategy.field
          ++ (match strats.find? hit with
              | some s => [s.field]
              | none => [])) ∧
      (strats.find? hit = none → (checkDuplicateGo env q strats).1 = noMatchResult) ∧
      (∀ s, strats.find? hit = some s →
        ∃ resp, q s.field = some resp ∧ resp.ok = true ∧ resp.results ≠ [] ∧
          (checkDuplicateGo env q strats).1 =
            ⟨true, some s.field, some s.label,
              resp.results.head?.map (mapToCandidate env)⟩) := by
  intro strats
  induction strats with
  | nil => refine ⟨by simp [checkDuplicateGo], fun _ => rfl, fun s h => by simp at h⟩
  | cons s0 rest ih =>
      obtain ⟨ihTr, ihNone, ihSome⟩ := ih
      by_cases h0 : stratHits q s0 = true
      · -- the first strategy hits: the probe short-circuits here
        have h0e := h0
        simp only [stratHits, Bool.and_eq_true, decide_eq_true_iff] at h0e
        obtain ⟨heli, hrest⟩ := h0e
        cases hq : q s0.field with
        | none => rw [hq] at hrest; simp at hrest
        | some resp =>
            rw [hq] at hrest
            simp only [Bool.and_eq_true, decide_eq_true_iff] at hrest
            obtain ⟨hok, hcnt, hemp⟩ := hrest
            have hne : resp.results ≠ [] := by
              intro hnil
              rw [hnil] at hemp
              simp at hemp
            have hgo : checkDuplicateGo env q (s0 :: rest) =
                (⟨true, some s0.field, some s0.label,
                    resp.results.head?.map (mapToCandidate env)⟩, [s0.field]) := by
              simp only [checkDuplicateGo, heli, hq, hok, if_true]
              rw [if_pos ⟨hcnt, hne⟩]
            have hfind : (s0 :: rest).find? hit = some s0 :=
              List.find?_cons_of_pos _ (by rw [hhit s0]; exact h0)
            have htake : ((s0 :: rest).takeWhile fun s => !hit s) = [] := by
              rw [List.takeWhile_cons_of_neg]
              simp [hhit s0, h0]
            refine ⟨?_, ?_, ?_⟩
            · rw [hgo, hfind, htake]; simp
            · intro hnone; rw [hfind] at hnone; exact absurd hnone (by simp)
            · intro s hs
              rw [hfind] at hs
              injection hs with hs
              subst hs
              exact ⟨resp, hq, hok, hne, by rw [hgo]⟩
      · -- the first strategy does not hit: the probe continues with the rest
        have h0f : stratHits q s0 = false := by
          cases h : stratHits q s0 with
          | false => rfl
          | true => exact absurd h h0
        have hstep : checkDuplicateGo env q (s0 :: rest) =
            ((checkDuplicateGo env q rest).1,
              (if stratEligible s0 then [s0.field] else [])
                ++ (checkDuplicateGo env q rest).2) := by
          cases heli : stratEligible s0 with
          | false =>
              simp only [checkDuplicateGo, heli]
              simp
          | true =>
              cases hq : q s0.field with
              | none => simp [checkDuplicateGo, heli, hq]
              | some resp =>
                  cases hok : resp.ok with
                  | false => simp [checkDuplicateGo, heli, hq, hok]
                  | true =>
                      have hcon : ¬(0 < resp.count ∧ resp.results ≠ []) := by
                        intro hcon
                        have hth : stratHits q s0 = true := by
                          simp only [stratHits, heli, hq, hok, Bool.and_eq_true,
                            decide_eq_true_iff]
                          refine ⟨trivial, trivial, hcon.1, ?_⟩
                          cases hres : resp.results with
                          | nil => exact absurd hres hcon.2
                          | cons a l => simp
                        rw [hth] at h0f
                        simp at h0f
                      simp only [checkDuplicateGo, heli, hq, hok, if_true]
                      rw [if_neg hcon]
                      simp
        have hfind : (s0 :: rest).find? hit = rest.find? hit :=
          List.find?_cons_of_neg _ (by rw [hhit s0, h0f]; simp)
        have htake : ((s0 :: rest).takeWhile fun s => !hit s)
            = s0 :: (rest.takeWhile fun s => !hit s) := by
          rw [List.takeWhile_cons_of_pos]
          simp [hhit s0, h0f]
        refine ⟨?_, ?_, ?_⟩
        · rw [hstep, hfind, htake]
          cases heli : stratEligible s0 with
          | false =>
              rw [List.filter_cons_of_neg (by simp [heli])]
              simpa using ihTr
          | true =>
              rw [List.filter_cons_of_pos (by simp [heli])]
              simp only [List.map_cons, List.cons_append, if_true]
              rw [ihTr]
              simp
        · intro hnone
          rw [hstep]
          exact ihNone (by rw [← hfind]; exact hnone)
        · intro s hs
          rw [hfind] at hs
          obtain ⟨resp, hq, hok, hne, hres⟩ := ihSome s hs
          exact ⟨resp, hq, hok, hne, by rw [hstep]; exact hres⟩

/-- C1: the duplicate probe evaluates its strategies strictly in the order
email, phone, linkedin, name; a strategy whose (trimmed) value is absent or
shorter than 3 characters is skipped and issues no ATS query (the query
trace only contains eligible strategies preceding the first hit); a failed
query is logged and evaluation continues; the first eligible strategy whose
query returns at least one result ends the probe with `isDuplicate = true`,
`matchedBy` that strategy's field and the first result mapped through
`mapToCandidate`; if every strategy is skipped or empty the result is
`noMatchResult` with `isDuplicate = false`. -/
theorem c1_checkDuplicate (env : Env) (data : DupCheckInput)
    (q : MatchField → Option ManatalResponse)
    (hWf : ∀ f r, q f = some r → r.count = r.results.length) :
    ((checkDuplicateCandidate env data q).2
      = (((dupStrategies data).takeWhile fun s => !queryReturnsResult q s).filter
            stratEligible).map DupStrategy.field
        ++ (match (dupStrategies data).find? (queryReturnsResult q) with
            | some s => [s.field]
            | none => [])) ∧
    ((dupStrategies data).find? (queryReturnsResult q) = none →
      (checkDuplicateCandidate env data q).1 = noMatchResult) ∧
    (∀ s, (dupStrategies data).find? (queryReturnsResult q) = some s →
      ∃ resp, q s.field = some resp ∧ resp.ok = true ∧ resp.results ≠ [] ∧
        (checkDuplicateCandidate env data q).1 =
          ⟨true, some s.field, some s.label,
            resp.results.head?.map (mapToCandidate env)⟩) :=
  checkDuplicateGo_char env q (queryReturnsResult q)
    (fun s => (stratHits_eq_queryReturnsResult q hWf s).symm) (dupStrategies data)

/-- A fixed environment for concrete evaluations. -/
def envW : Env :=
  ⟨fun s => s, "2024-01-01T00:00:00Z", fun n => "uuid-" ++ toString n⟩

/-- Probe input whose email and phone both match existing (different)
candidates in the ATS. -/
def c1data : DupCheckInput :=
  ⟨some "a@x.com", some "Alice Silva", none, some "+5511999"⟩

/-- ATS oracle for the precedence scenario: the email query matches one
existing candidate, the phone query a different one. -/
def c1q : MatchField → Option ManatalResponse
  | .email => some ⟨true, 1, [{ id := "101", full_name := "Alice Silva" }]⟩
  | .phone => some ⟨true, 1, [{ id := "202", full_name := "Bob Costa" }]⟩
  | _ => some ⟨true, 0, []⟩

/-- C1 witness: when both the email and the phone match different existing
candidates, `matchedBy` is `email` (strategy order wins) and only the email
query was issued. -/
theorem c1_witness :
    (checkDuplicateCandidate envW c1data c1q).1.matchedBy = some MatchField.email ∧
    (checkDuplicateCandidate envW c1data c1q).2 = [MatchField.email] := by
  have h := c1_checkDuplicate envW c1data c1q
    (by intro f r hfr; cases f <;> (injection hfr with h2; subst h2; rfl))
  constructor
  · obtain ⟨resp, hq, hok, hne, hres⟩ :=
      h.2.2 ⟨.email, "E-mail", "email", some "a@x.com"⟩ (by decide)
    rw [hres]
  · rw [h.1]
    decide

/-! ## Candidate search (`searchCandidates` in `manatalService.ts`) -/

/-- Scanner for the `toTitleCase` regex replace
(`str.replace(/\w\S*\/g, t => t[0].toUpperCase() + t.substring(1).toLowerCase())`).
The flag records whether we are inside a matched token. -/
def titleGo : Bool → List Char → List Char
  | _, [] => []
  | false, c :: rest =>
      if isWordChar c then c.toUpper :: titleGo true rest
      else c :: titleGo false rest
  | true, c :: rest =>
      if isJsSpace c then c :: titleGo false rest
      else c.toLower :: titleGo true rest

/-- Embedding of `toTitleCase`. -/
def toTitleCase (s : String) : String :=
  String.mk (titleGo false s.toList)

/-- Boolean list prefix test. -/
def prefB : List Char → List Char → Bool
  | [], _ => true
  | _ :: _, [] => false
  | a :: as, b :: bs => a == b && prefB as bs

/-- Boolean substring (contiguous) test. -/
def subB (sub : List Char) : List Char → Bool
  | [] => prefB sub []
  | c :: rest => prefB sub (c :: rest) || subB sub rest

/-- JS `String.prototype.includes`. -/
def strIncludes (s sub : String) : Bool :=
  subB sub.toList s.toList

/-- One search strategy of `searchCandidates`. -/
structure ProbeStrategy where
  param : String
  val : String
  description : String
  deriving DecidableEq, Repr

/-- Strategy selection of `searchCandidates`: URL-like queries probe the
LinkedIn and social-media URL fields, email-like queries the email field,
and plain text probes exact title-cased name plus broad search. -/
def searchStrategies (query : String) : List ProbeStrategy :=
  let isLink := strIncludes (jsToLower query) "http"
    || strIncludes (jsToLower query) "www."
  let isEmail := strIncludes query "@"
  let normalizedQuery := toTitleCase query
  if isLink then
    [ ⟨"linkedin_url__icontains", jsTrim query, "LinkedIn URL"⟩,
      ⟨"social_media_url__icontains", jsTrim query, "Social Media"⟩ ]
  else if isEmail then
    [ ⟨"email", jsTrim query, "Email"⟩ ]
  else
    [ ⟨"full_name", normalizedQuery, "Name Exact"⟩,
      ⟨"search", query, "Broad Search"⟩ ]

/-- Per-strategy probe outcome (`ProbeResult` in the source). -/
structure ProbeResult where
  strategy : ProbeStrategy
  count : Nat
  data : Option ManatalResponse
  success : Bool
  deriving Repr

/-- One strategy's query: a thrown error or a non-ok response yields a
failed probe with count 0, otherwise `count` is taken from the payload. -/
def runProbe (q : String × String → Option ManatalResponse)
    (strat : ProbeStrategy) : ProbeResult :=
  match q (strat.param, strat.val) with
  | none => ⟨strat, 0, none, false⟩
  | some res =>
      if res.ok then ⟨strat, res.count, some res, true⟩
      else ⟨strat, 0, none, false⟩

/-- Embedding of `searchCandidates`. Returns the mapped candidate list and
the trace of `(param, value)` queries issued against the ATS. Queries under
3 characters return immediately with no query issued; the winning strategy
(first successful probe with a positive count) contributes its first 10
results. The source reads `winner.data.results` only when `success` is
true, in which case `data` is always present; the impossible `none`
sub-branch mirrors the outer catch returning an empty list. -/
def searchCandidates (env : Env) (query : String)
    (q : String × String → Option ManatalResponse) :
    List PartialCandidate × List (String × String) :=
  if query = "" ∨ query.length < 3 then ([], [])
  else
    let strategies := searchStrategies query
    let results := strategies.map (runProbe q)
    let issued := strategies.map fun s => (s.param, s.val)
    match results.find? (fun r => r.success && decide (0 < r.count)) with
    | some winner =>
        match winner.data with
        | some resp => ((resp.results.take 10).map (mapToCandidate env), issued)
        | none => ([], issued)
    | none => ([], issued)

/-- C10: a query that is empty or shorter than 3 characters returns the
empty list without issuing any ATS request, and every search result list
has at most 10 entries (the winning strategy's page is truncated to the
first 10 results). -/
theorem c10_searchCandidates (env : Env) (query : String)
    (q : String × String → Option ManatalResponse) :
    (query.length < 3 → searchCandidates env query q = ([], [])) ∧
    (searchCandidates env query q).1.length ≤ 10 := by
  constructor
  · intro h
    simp [searchCandidates, Or.inr h]
  · simp only [searchCandidates]
    split
    · simp
    · split
      · split
        · simp only [List.length_map, List.length_take]
          omega
        · simp
      · simp

/-- C10 witness: the two-character query "ab" short-circuits to an empty
result with no ATS query issued. -/
theorem c10_witness :
    searchCandidates envW "ab" (fun _ => some ⟨true, 5, []⟩) = ([], []) :=
  (c10_searchCandidates envW "ab" (fun _ => some ⟨true, 5, []⟩)).1 (by decide)

/-! ## Candidate service (`src/services/candidateService.ts`)

The per-user pin overlay lives in localStorage as a string-keyed object of
pinned flags plus a list of pinned candidate snapshots. JS objects are
modelled as association lists; `manatalId` and other optional fields are
`Option String`, with `null` and `undefined` both collapsed to `none`. -/

/-- The `Candidate` interface of `src/types.ts`. -/
structure Candidate where
  id : String
  name : String
  role : String
  location : String
  status : CandidateStatus
  visibility : Bool
  addedAt : String
  avatarUrl : String
  interestedCount : Nat
  isInterestedByCurrentUser : Bool := false
  isPinned : Bool := false
  reference : Option String := none
  currentCompany : Option String := none
  noticePeriod : Option String := none
  currentSalary : Option String := none
  expectedSalary : Option String := none
  owner : Option String := none
  linkedinUrl : Option String := none
  email : Option String := none
  phone : Option String := none
  university : Option String := none
  diploma : Option String := none
  source : Option String := none
  manatalId : Option String := none
  createdBy : Option String := none
  createdByName : Option String := none
  deriving DecidableEq, Repr

/-- Lookup in a JS object used as a boolean map (`!!obj[k]`, absent keys
are falsy). -/
def jsGet (m : List (String × Bool)) (k : String) : Bool :=
  match m.find? fun kv => kv.1 == k with
  | some kv => kv.2
  | none => false

/-- JS `obj[k] = v`. -/
def jsSet (m : List (String × Bool)) (k : String) (v : Bool) :
    List (String × Bool) :=
  if (m.find? fun kv => kv.1 == k).isSome then
    m.map fun kv => if kv.1 == k then (kv.1, v) else kv
  else m ++ [(k, v)]

/-- JS `delete obj[k]`. -/
def jsDelete (m : List (String × Bool)) (k : String) : List (String × Bool) :=
  m.filter fun kv => kv.1 != k

/-- A user's pin overlay: the pinned-ids flag object
(`talentflow_pinned_ids_` key) and the pinned snapshot list
(`talentflow_pinned_data_` key). -/
structure PinStore where
  pinnedIds : List (String × Bool)
  pinnedData : List Candidate
  deriving DecidableEq, Repr

/-- Embedding of `isCandidatePinned`. -/
def isCandidatePinned (id : String) (userId : Option String)
    (store : PinStore) : Bool :=
  if optTruthy userId = false then false
  else jsGet store.pinnedIds id

/-- Embedding of `togglePin`: with no authenticated user it returns `false`
at once; otherwise the pin state keyed by `manatalId || id` is flipped, the
flag written/deleted under both keys, and the snapshot list upserted
(pin) or filtered by either key (unpin). -/
def togglePin (candidate : Candidate) (userId : Option String)
    (store : PinStore) : Bool × PinStore :=
  if optTruthy userId = false then (false, store)
  else
    let pinnedIds := store.pinnedIds
    let pinnedData := store.pinnedData
    let primaryId := jsOrOpt candidate.manatalId candidate.id
    let isCurrentlyPinned := jsGet pinnedIds primaryId
    if isCurrentlyPinned then
      let pinnedIds := jsDelete pinnedIds primaryId
      let pinnedIds :=
        if strTruthy candidate.id then jsDelete pinnedIds candidate.id
        else pinnedIds
      let pinnedData := pinnedData.filter fun c =>
        !(jsEqOpt c.manatalId candidate.manatalId) && !(c.id == candidate.id)
      (false, ⟨pinnedIds, pinnedData⟩)
    else
      let pinnedIds := jsSet pinnedIds primaryId true
      let pinnedIds :=
        if strTruthy candidate.id then jsSet pinnedIds candidate.id true
        else pinnedIds
      let existsInData := pinnedData.any fun c =>
        (optTruthy c.manatalId && jsEqOpt c.manatalId candidate.manatalId)
          || (c.id == candidate.id)
      let pinnedData :=
        if existsInData then pinnedData
        else pinnedData ++ [{ candidate with isPinned := true }]
      (true, ⟨pinnedIds, pinnedData⟩)

/-- The pin toggle as §4.2 of the specification words its precondition: it
fails loudly (raises) when `userId` is absent, and otherwise behaves as the
implementation. Used to compare the spec's wording with the code. -/
def togglePinSpec (candidate : Candidate) (userId : Option String)
    (store : PinStore) : Except String (Bool × PinStore) :=
  if optTruthy userId = false then .error "pin requires authentication"
  else .ok (togglePin candidate userId store)

/-- Embedding of `mergeWithLocalPreferences`: joins the interested flag and
the per-user pin flag (by `id`, falling back to a truthy `manatalId`) onto
every record. -/
def mergeWithLocalPreferences (interests : List (String × Bool))
    (userId : Option String) (store : PinStore)
    (candidates : List Candidate) : List Candidate :=
  candidates.map fun c =>
    { c with
      isInterestedByCurrentUser := jsGet interests c.id
      isPinned :=
        if optTruthy userId then
          jsGet store.pinnedIds c.id
            || (match c.manatalId with
                | some m => if m = "" then false else jsGet store.pinnedIds m
                | none => false)
        else false }

/-- Embedding of steps 2-5 of `getAll`: pinned snapshots not already present
in the DB list (matched by truthy `manatalId` or by `id`) are appended, and
local preference flags are joined onto the combined list. -/
def getAllCombine (interests : List (String × Bool)) (userId : Option String)
    (store : PinStore) (dbCandidates : List Candidate) : List Candidate :=
  let pinnedDataCache := if optTruthy userId then store.pinnedData else []
  let uniquePinnedExtras := pinnedDataCache.filter fun pinned =>
    !(dbCandidates.any fun dbC =>
      (optTruthy dbC.manatalId && jsEqOpt dbC.manatalId pinned.manatalId)
        || (dbC.id == pinned.id))
  let allCandidates := dbCandidates ++ uniquePinnedExtras
  mergeWithLocalPreferences interests userId store allCandidates

/-- The dedup invariant: no two entries of a list carry the same truthy
(non-null, non-empty) `manatalId`. -/
def NoDupExternalIds (l : List Candidate) : Prop :=
  l.Pairwise fun a b =>
    optTruthy a.manatalId = true → optTruthy b.manatalId = true →
      a.manatalId ≠ b.manatalId

/-- A minimal well-formed candidate for concrete scenarios. -/
def candBase (i : String) : Candidate :=
  { id := i, name := "Candidate " ++ i, role := "Dev", location := "Rio",
    status := .available, visibility := true, addedAt := "2024-01-01",
    avatarUrl := "", interestedCount := 0 }

/-! ## Lemmas about the JS object operations -/

theorem jsGet_jsDelete_self (m : List (String × Bool)) (k : String) :
    jsGet (jsDelete m k) k = false := by
  induction m with
  | nil => rfl
  | cons kv rest ih =>
      by_cases h : kv.1 = k
      · simpa [jsDelete, List.filter_cons, h] using ih
      · simp only [jsDelete, List.filter_cons] at ih ⊢
        rw [if_pos (by simp [h])]
        simpa [jsGet, List.find?_cons, h] using ih

theorem jsGet_jsDelete_ne (m : List (String × Bool)) (k k2 : String)
    (h : k2 ≠ k) : jsGet (jsDelete m k) k2 = jsGet m k2 := by
  induction m with
  | nil => rfl
  | cons kv rest ih =>
      by_cases hk : kv.1 = k
      · have hk2 : kv.1 ≠ k2 := by rw [hk]; exact fun he => h he.symm
        simp only [jsDelete, List.filter_cons] at ih ⊢
        rw [if_neg (by simp [hk])]
        rw [ih]
        simp [jsGet, List.find?_cons, hk2]
      · simp only [jsDelete, List.filter_cons] at ih ⊢
        rw [if_pos (by simp [hk])]
        by_cases hk2 : kv.1 = k2
        · simp [jsGet, List.find?_cons, hk2]
        · simp only [jsGet, List.find?_cons] at ih ⊢
          rw [show (kv.1 == k2) = false by simp [hk2]]
          simpa [jsGet] using ih

theorem comp_key_pres (k k2 : String) (v : Bool) :
    ((fun kv : String × Bool => kv.1 == k2)
      ∘ fun kv => if kv.1 == k then (kv.1, v) else kv)
      = fun kv : String × Bool => kv.1 == k2 := by
  funext kv
  by_cases hk : (kv.1 == k) = true <;> simp [Function.comp, hk]

theorem jsGet_map_self (m : List (String × Bool)) (k : String) (v : Bool)
    (hmem : (m.find? fun kv => kv.1 == k).isSome = true) :
    jsGet (m.map fun kv => if kv.1 == k then (kv.1, v) else kv) k = v := by
  unfold jsGet
  rw [List.find?_map, comp_key_pres k k v]
  cases hf : m.find? fun kv => kv.1 == k with
  | none => rw [hf] at hmem; simp at hmem
  | some kv =>
      have hkv := List.find?_some hf
      simp [beq_iff_eq.mp hkv]

theorem jsGet_map_ne (m : List (String × Bool)) (k k2 : String) (v : Bool)
    (h : k2 ≠ k) :
    jsGet (m.map fun kv => if kv.1 == k then (kv.1, v) else kv) k2
      = jsGet m k2 := by
  unfold jsGet
  rw [List.find?_map, comp_key_pres k k2 v]
  cases hf : m.find? fun kv => kv.1 == k2 with
  | none => rfl
  | some kv =>
      have hkv : kv.1 = k2 := by
        have := List.find?_some hf
        exact beq_iff_eq.mp this
      simp [hkv, h]

theorem jsGet_append_self (m : List (String × Bool)) (k : String) (v : Bool)
    (hnone : m.find? (fun kv => kv.1 == k) = none) :
    jsGet (m ++ [(k, v)]) k = v := by
  unfold jsGet
  rw [List.find?_append, hnone]
  simp

theorem jsGet_append_ne (m : List (String × Bool)) (k k2 : String) (v : Bool)
    (h : k2 ≠ k) :
    jsGet (m ++ [(k, v)]) k2 = jsGet m k2 := by
  unfold jsGet
  rw [List.find?_append]
  cases hf : m.find? fun kv => kv.1 == k2 with
  | none =>
      have : (k == k2) = false := by
        rw [beq_eq_false_iff_ne]
        exact fun he => h he.symm
      simp [List.find?, this]
  | some kv => simp

theorem jsGet_jsSet_self (m : List (String × Bool)) (k : String) (v : Bool) :
    jsGet (jsSet m k v) k = v := by
  unfold jsSet
  by_cases hmem : (m.find? fun kv => kv.1 == k).isSome = true
  · rw [if_pos hmem]
    exact jsGet_map_self m k v hmem
  · rw [if_neg hmem]
    apply jsGet_append_self
    cases hf : m.find? fun kv => kv.1 == k with
    | none => rfl
    | some kv => rw [hf] at hmem; simp at hmem

theorem jsGet_jsSet_ne (m : List (String × Bool)) (k k2 : String) (v : Bool)
    (h : k2 ≠ k) : jsGet (jsSet m k v) k2 = jsGet m k2 := by
  unfold jsSet
  by_cases hmem : (m.find? fun kv => kv.1 == k).isSome = true
  · rw [if_pos hmem]
    exact jsGet_map_ne m k k2 v h
  · rw [if_neg hmem]
    exact jsGet_append_ne m k k2 v h

/-! ## Pin toggle theorems -/

theorem togglePin_auth_unpin (candidate : Candidate) (u : Option String)
    (store : PinStore) (hu : optTruthy u = true)
    (hp : jsGet store.pinnedIds (jsOrOpt candidate.manatalId candidate.id) = true) :
    togglePin candidate u store =
      (false,
        ⟨(if strTruthy candidate.id then
            jsDelete (jsDelete store.pinnedIds
              (jsOrOpt candidate.manatalId candidate.id)) candidate.id
          else jsDelete store.pinnedIds (jsOrOpt candidate.manatalId candidate.id)),
          store.pinnedData.filter fun c =>
            !(jsEqOpt c.manatalId candidate.manatalId)
              && !(c.id == candidate.id)⟩) := by
  simp [togglePin, hu, hp]

theorem togglePin_auth_pin (candidate : Candidate) (u : Option String)
    (store : PinStore) (hu : optTruthy u = true)
    (hp : jsGet store.pinnedIds (jsOrOpt candidate.manatalId candidate.id) = false) :
    togglePin candidate u store =
      (true,
        ⟨(if strTruthy candidate.id then
            jsSet (jsSet store.pinnedIds
              (jsOrOpt candidate.manatalId candidate.id) true) candidate.id true
          else jsSet store.pinnedIds
            (jsOrOpt candidate.manatalId candidate.id) true),
          if store.pinnedData.any fun c =>
              (optTruthy c.manatalId && jsEqOpt c.manatalId candidate.manatalId)
                || (c.id == candidate.id) then
            store.pinnedData
          else store.pinnedData ++ [{ candidate with isPinned := true }]⟩) := by
  simp [togglePin, hu, hp]

theorem togglePin_unpin_clean (candidate : Candidate) (u : Option String)
    (s : PinStore) (hu : optTruthy u = true) (hid : candidate.id ≠ "")
    (hres : (togglePin candidate u s).1 = false) :
    jsGet (togglePin candidate u s).2.pinnedIds
        (jsOrOpt candidate.manatalId candidate.id) = false ∧
    jsGet (togglePin candidate u s).2.pinnedIds candidate.id = false ∧
    ((togglePin candidate u s).2.pinnedData.all fun c =>
      !(jsEqOpt c.manatalId candidate.manatalId)
        && !(c.id == candidate.id)) = true := by
  have hidT : strTruthy candidate.id = true := by simp [strTruthy, hid]
  cases hp : jsGet s.pinnedIds (jsOrOpt candidate.manatalId candidate.id) with
  | false =>
      rw [togglePin_auth_pin candidate u s hu hp] at hres
      simp at hres
  | true =>
      rw [togglePin_auth_unpin candidate u s hu hp]
      rw [hidT]
      simp only [if_true]
      refine ⟨?_, ?_, ?_⟩
      · by_cases hpk : jsOrOpt candidate.manatalId candidate.id = candidate.id
        · rw [hpk, jsGet_jsDelete_self]
        · rw [jsGet_jsDelete_ne _ _ _ hpk, jsGet_jsDelete_self]
      · exact jsGet_jsDelete_self _ _
      · rw [List.all_eq_true]
        intro c hc
        exact (List.mem_filter.mp hc).2

/-- C7: with an authenticated user, toggling a candidate's pin twice returns
complementary booleans (`true` then `false`, or `false` then `true`); and
whenever a call unpins (returns `false`), the resulting overlay holds no
flag under either of the candidate's keys (`manatalId || id` and `id`) and
no snapshot matching either key — no residual entry survives an unpin. -/
theorem c7_togglePin_double (candidate : Candidate) (uid : String)
    (store : PinStore) (huid : uid ≠ "") (hid : candidate.id ≠ "") :
    ((togglePin candidate (some uid) (togglePin candidate (some uid) store).2).1
      = !(togglePin candidate (some uid) store).1) ∧
    (∀ s : PinStore, (togglePin candidate (some uid) s).1 = false →
      jsGet (togglePin candidate (some uid) s).2.pinnedIds
          (jsOrOpt candidate.manatalId candidate.id) = false ∧
      jsGet (togglePin candidate (some uid) s).2.pinnedIds candidate.id = false ∧
      ((togglePin candidate (some uid) s).2.pinnedData.all fun c =>
        !(jsEqOpt c.manatalId candidate.manatalId)
          && !(c.id == candidate.id)) = true) := by
  have hu : optTruthy (some uid) = true := by simp [optTruthy, strTruthy, huid]
  have hidT : strTruthy candidate.id = true := by simp [strTruthy, hid]
  constructor
  · cases hp : jsGet store.pinnedIds (jsOrOpt candidate.manatalId candidate.id) with
    | true =>
        have h1 := togglePin_auth_unpin candidate (some uid) store hu hp
        have hres1 : (togglePin candidate (some uid) store).1 = false := by
          rw [h1]
        have hclean := (togglePin_unpin_clean candidate (some uid) store hu hid
          hres1).1
        have h2 := togglePin_auth_pin candidate (some uid)
          (togglePin candidate (some uid) store).2 hu hclean
        rw [h2, hres1]
        rfl
    | false =>
        have h1 := togglePin_auth_pin candidate (some uid) store hu hp
        have hres1 : (togglePin candidate (some uid) store).1 = true := by
          rw [h1]
        have hflag : jsGet (togglePin candidate (some uid) store).2.pinnedIds
            (jsOrOpt candidate.manatalId candidate.id) = true := by
          rw [h1]
          dsimp only
          rw [hidT, if_pos rfl]
          by_cases hpk : jsOrOpt candidate.manatalId candidate.id = candidate.id
          · rw [hpk, jsGet_jsSet_self]
          · rw [jsGet_jsSet_ne _ _ _ _ hpk, jsGet_jsSet_self]
        have h2 := togglePin_auth_unpin candidate (some uid)
          (togglePin candidate (some uid) store).2 hu hflag
        rw [h2, hres1]
        rfl
  · intro s hres
    exact togglePin_unpin_clean candidate _ s hu hid hres

/-- C7 witness: pinning then unpinning a fresh candidate from an empty
overlay returns `true` then `false` and leaves no residual flag or
snapshot. -/
theorem c7_witness :
    ((togglePin (candBase "a")
        (some "u") (togglePin (candBase "a") (some "u") ⟨[], []⟩).2).1
      = !(togglePin (candBase "a") (some "u") ⟨[], []⟩).1) ∧
    (togglePin (candBase "a") (some "u") ⟨[], []⟩).1 = true := by
  refine ⟨(c7_togglePin_double (candBase "a") "u" ⟨[], []⟩
    (by decide) (by decide)).1, by decide⟩

/-- C8: the unpin branch's snapshot filter
`(c.manatalId !== candidate.manatalId) && (c.id !== candidate.id)` compares
`manatalId` without the truthiness guard that the pin branch uses, so
unpinning a candidate with no `manatalId` removes every other snapshot that
also lacks a `manatalId` (`null === null`): here unpinning A deletes B's
snapshot even though B's keys differ from A's, while B's pin flag survives.
The spec's frame property ("removed on unpin — never removed for any other
reason") is the evident intent; this evaluation exhibits the bug. -/
theorem c8_unpin_clobbers_sibling_snapshot :
    jsGet (togglePin (candBase "a") (some "u")
        ⟨[("a", true), ("b", true)],
          [{ candBase "a" with isPinned := true },
            { candBase "b" with isPinned := true }]⟩).2.pinnedIds "b" = true ∧
    (togglePin (candBase "a") (some "u")
        ⟨[("a", true), ("b", true)],
          [{ candBase "a" with isPinned := true },
            { candBase "b" with isPinned := true }]⟩).2.pinnedData = [] := by
  decide

/-- C9 counterexample: with `userId` absent the implementation does not
raise — it recovers internally, returning `false` with the store untouched,
while the spec-worded version fails loudly. -/
theorem c9_counterexample :
    togglePin (candBase "a") none ⟨[], []⟩ = (false, ⟨[], []⟩) ∧
    togglePinSpec (candBase "a") none ⟨[], []⟩ =
      .error "pin requires authentication" := by
  constructor <;> rfl

/-- C9 (amended): when `userId` is absent (or empty), `togglePin` returns
`false` synchronously without raising and without touching the overlay
store, while the spec-worded variant raises; the precondition is thus
recovered internally, not surfaced as an error. -/
theorem c9_togglePin_no_auth (candidate : Candidate) (store : PinStore)
    (userId : Option String) (h : optTruthy userId = false) :
    togglePin candidate userId store = (false, store) ∧
    togglePinSpec candidate userId store =
      .error "pin requires authentication" := by
  constructor
  · simp [togglePin, h]
  · simp [togglePinSpec, h]

/-- C9 witness: a concrete call with no authenticated user returns `false`
and leaves the store unchanged. -/
theorem c9_witness :
    togglePin (candBase "b") none ⟨[("x", true)], []⟩
      = (false, ⟨[("x", true)], []⟩) :=
  (c9_togglePin_no_auth (candBase "b") ⟨[("x", true)], []⟩ none rfl).1

/-! ## Search merge effect (`PartnerPortal` in `src/views`, search effect)

For each external ATS search result the effect looks for a matching local
(canonical) candidate with a single `find` whose predicate matches by
truthy `manatalId` or by case-insensitive (untrimmed) name; the canonical
record wins entirely, otherwise a transient record is synthesized. -/

/-- The match predicate of the merge effect's `find`. -/
def mergePred (m : PartialCandidate) (c : Candidate) : Bool :=
  (optTruthy m.manatalId && jsEqOpt c.manatalId m.manatalId)
    || (jsToLower c.name == jsToLower (jsOrStr m.name ""))

/-- One element of the merge: the matching canonical candidate, or a
synthesized transient one. `i` is the element index, used to draw
`crypto.randomUUID`. -/
def mergeOne (env : Env) (userId : Option String) (store : PinStore)
    (localCandidates : List Candidate) (i : Nat) (m : PartialCandidate) :
    Candidate :=
  match localCandidates.find? (mergePred m) with
  | some existingLocal => existingLocal
  | none =>
      let idToCheck := jsOrOpt m.manatalId ""
      let isPinned :=
        if idToCheck = "" then false
        else isCandidatePinned idToCheck userId store
      { id := jsOrOpt m.manatalId (env.randomUUID i)
        name := jsOrStr m.name "Unknown"
        role := jsOrStr m.role "Candidate"
        location := jsOrStr m.location ""
        status := .available
        visibility := true
        addedAt := jsOrStr m.addedAt env.nowISO
        avatarUrl := jsOrStr m.avatarUrl ""
        interestedCount := 0
        reference := m.reference
        currentCompany := some m.currentCompany
        linkedinUrl := some m.linkedinUrl
        email := some m.email
        phone := some m.phone
        manatalId := m.manatalId
        isPinned := isPinned }

/-- Index-threading recursion over the external results. -/
def mergeGo (env : Env) (userId : Option String) (store : PinStore)
    (localCandidates : List Candidate) : Nat → List PartialCandidate → List Candidate
  | _, [] => []
  | i, m :: rest =>
      mergeOne env userId store localCandidates i m
        :: mergeGo env userId store localCandidates (i + 1) rest

/-- Embedding of the merged result list (`mergedResults`) of the search
effect, before the active-filter step. -/
def mergeSearchResults (env : Env) (userId : Option String) (store : PinStore)
    (localCandidates : List Candidate) (manatalResults : List PartialCandidate) :
    List Candidate :=
  mergeGo env userId store localCandidates 0 manatalResults

/-- The merge step as §4.1 of the specification words it, for comparison
with the implementation: the canonical record is looked up by `externalId`
FIRST and then by case-insensitive TRIMMED name, and a synthesized
transient candidate always receives a fresh random `localId`. -/
def mergeOneSpec (env : Env) (userId : Option String) (store : PinStore)
    (canonical : List Candidate) (i : Nat) (m : PartialCandidate) : Candidate :=
  let byId :=
    if optTruthy m.manatalId then
      canonical.find? fun c => jsEqOpt c.manatalId m.manatalId
    else none
  let byName := canonical.find? fun c =>
    jsToLower (jsTrim c.name) == jsToLower (jsTrim (jsOrStr m.name ""))
  match byId.orElse fun _ => byName with
  | some existingLocal => existingLocal
  | none =>
      let idToCheck := jsOrOpt m.manatalId ""
      let isPinned :=
        if idToCheck = "" then false
        else isCandidatePinned idToCheck userId store
      { id := env.randomUUID i
        name := jsOrStr m.name "Unknown"
        role := jsOrStr m.role "Candidate"
        location := jsOrStr m.location ""
        status := .available
        visibility := true
        addedAt := jsOrStr m.addedAt env.nowISO
        avatarUrl := jsOrStr m.avatarUrl ""
        interestedCount := 0
        reference := m.reference
        currentCompany := some m.currentCompany
        linkedinUrl := some m.linkedinUrl
        email := some m.email
        phone := some m.phone
        manatalId := m.manatalId
        isPinned := isPinned }

/-- Index-threading recursion for the spec-worded merge. -/
def mergeGoSpec (env : Env) (userId : Option String) (store : PinStore)
    (canonical : List Candidate) : Nat → List PartialCandidate → List Candidate
  | _, [] => []
  | i, m :: rest =>
      mergeOneSpec env userId store canonical i m
        :: mergeGoSpec env userId store canonical (i + 1) rest

/-- The merged list as the specification words it. -/
def mergeSearchResultsSpec (env : Env) (userId : Option String)
    (store : PinStore) (canonical : List Candidate)
    (manatalResults : List PartialCandidate) : List Candidate :=
  mergeGoSpec env userId store canonical 0 manatalResults

/-- Canonical candidate with a trailing space in its name and no ATS id. -/
def candC2 : Candidate := { candBase "c1" with name := "alice " }

/-- External search result for the same person, carrying an ATS id. -/
def extM2 : PartialCandidate :=
  { id := "123", name := "Alice", role := "Dev", location := "SP",
    manatalId := some "123", status := .available, avatarUrl := "",
    addedAt := "2024-01-02", currentCompany := "", linkedinUrl := "",
    email := "", phone := "", visibility := true }

/-- C2 counterexample: on a canonical record whose name differs only by a
trailing space, the spec-worded merge (trimmed name match, fresh random
localId) returns the canonical record, while the implementation finds no
match (it does not trim) and synthesizes a transient record whose id is the
ATS id `123`, not a fresh random localId — the two merges disagree at this
input. -/
theorem c2_counterexample :
    mergeSearchResultsSpec envW (some "u") ⟨[], []⟩ [candC2] [extM2]
      = [candC2] ∧
    (mergeSearchResults envW (some "u") ⟨[], []⟩ [candC2] [extM2]).map
      Candidate.id = ["123"] ∧
    mergeSearchResultsSpec envW (some "u") ⟨[], []⟩ [candC2] [extM2]
      ≠ mergeSearchResults envW (some "u") ⟨[], []⟩ [candC2] [extM2] := by
  refine ⟨by decide, by decide, by decide⟩

theorem mergeGo_getElem (env : Env) (userId : Option String) (store : PinStore)
    (locals : List Candidate) :
    ∀ (ms : List PartialCandidate) (i j : Nat),
      (mergeGo env userId store locals i ms)[j]?
        = (ms[j]?).map (mergeOne env userId store locals (i + j)) := by
  intro ms
  induction ms with
  | nil => intro i j; simp [mergeGo]
  | cons m rest ih =>
      intro i j
      cases j with
      | zero => simp [mergeGo]
      | succ n =>
          simp only [mergeGo, List.getElem?_cons_succ]
          rw [ih (i + 1) n, Nat.add_assoc, Nat.add_comm 1 n]

/-- C2 (amended): for every external result, the merge looks up a canonical
record with a single first-match scan whose predicate matches by truthy
`manatalId` or by case-insensitive UNTRIMMED name; when a match is found the
canonical record wins entirely (the external data is discarded); when no
match is found, the synthesized transient record has status Available,
visibility true, its id is the external `manatalId` when present and only
otherwise a fresh random localId, and the pin overlay is looked up under the
external id when present. -/
theorem c2_merge_characterization (env : Env) (userId : Option String)
    (store : PinStore) (locals : List Candidate) (ms : List PartialCandidate) :
    (∀ j : Nat, (mergeSearchResults env userId store locals ms)[j]?
      = (ms[j]?).map (mergeOne env userId store locals j)) ∧
    (∀ (i : Nat) (m : PartialCandidate) (c : Candidate),
      locals.find? (mergePred m) = some c →
      mergeOne env userId store locals i m = c) ∧
    (∀ (i : Nat) (m : PartialCandidate),
      locals.find? (mergePred m) = none →
      (mergeOne env userId store locals i m).status = .available ∧
      (mergeOne env userId store locals i m).visibility = true ∧
      (mergeOne env userId store locals i m).id
        = jsOrOpt m.manatalId (env.randomUUID i) ∧
      (mergeOne env userId store locals i m).manatalId = m.manatalId ∧
      (mergeOne env userId store locals i m).isPinned
        = (if jsOrOpt m.manatalId "" = "" then false
           else isCandidatePinned (jsOrOpt m.manatalId "") userId store)) := by
  refine ⟨?_, ?_, ?_⟩
  · intro j
    simpa using mergeGo_getElem env userId store locals ms 0 j
  · intro i m c hfind
    simp [mergeOne, hfind]
  · intro i m hfind
    simp [mergeOne, hfind]

/-- Canonical candidate already onboarded with ATS id 999. -/
def candC3 : Candidate :=
  { candBase "c9" with name := "Alice", manatalId := some "999" }

/-- External result with the same ATS id but different field values. -/
def extM3 : PartialCandidate :=
  { id := "999", name := "zzz", role := "Other", location := "X",
    manatalId := some "999", status := .available, avatarUrl := "",
    addedAt := "2024-03-01", currentCompany := "Acme", linkedinUrl := "",
    email := "alice@acme.com", phone := "1234", visibility := true }

/-- C2 witness (canonical precedence): an external record whose `manatalId`
matches a canonical record merges to exactly the canonical record. -/
theorem c2_witness :
    (mergeSearchResults envW (some "u") ⟨[], []⟩ [candC3] [extM3])[0]?
      = some candC3 := by
  have h := c2_merge_characterization envW (some "u") ⟨[], []⟩ [candC3] [extM3]
  rw [h.1 0]
  have h2 := h.2.1 0 extM3 candC3 (by decide)
  simp [h2]

/-- External result matching `candC3` by ATS id. -/
def extMA : PartialCandidate :=
  { id := "999", name := "zzz", role := "Dev", location := "X",
    manatalId := some "999", status := .available, avatarUrl := "",
    addedAt := "2024-03-01", currentCompany := "", linkedinUrl := "",
    email := "", phone := "", visibility := true }

/-- A different external result matching `candC3` by name only. -/
def extMB : PartialCandidate :=
  { id := "102", name := "alice", role := "Dev", location := "Y",
    manatalId := some "102", status := .available, avatarUrl := "",
    addedAt := "2024-03-02", currentCompany := "", linkedinUrl := "",
    email := "", phone := "", visibility := true }

/-- C3 counterexample: two distinct external records can match the same
canonical record (one by `manatalId`, one by case-insensitive name), so the
merged output contains the same candidate — and the same truthy
`manatalId` — twice: the dedup invariant does not hold for the search
merge. -/
theorem c3_counterexample :
    mergeSearchResults envW (some "u") ⟨[], []⟩ [candC3] [extMA, extMB]
      = [candC3, candC3] ∧
    optTruthy candC3.manatalId = true ∧
    ¬ NoDupExternalIds [candC3, candC3] := by
  refine ⟨by decide, by decide, ?_⟩
  intro h
  unfold NoDupExternalIds at h
  have h1 := (List.pairwise_cons.mp h).1 candC3 (List.mem_singleton.mpr rfl)
  exact h1 (by decide) (by decide) rfl

/-- C3 (amended): the `getAll` combination preserves the dedup invariant:
if the DB list and the pinned snapshot cache each contain pairwise-distinct
truthy `manatalId`s, then so does the combined, preference-joined output
(snapshots whose truthy `manatalId` already occurs in the DB list are
filtered out; the search merge, by contrast, does not guarantee the
invariant — see the counterexample). -/
theorem c3_getAll_dedup (interests : List (String × Bool))
    (userId : Option String) (store : PinStore) (db : List Candidate)
    (hdb : NoDupExternalIds db) (hpin : NoDupExternalIds store.pinnedData) :
    NoDupExternalIds (getAllCombine interests userId store db) := by
  unfold getAllCombine mergeWithLocalPreferences NoDupExternalIds
  apply List.Pairwise.map
  · intro a b hab
    simpa using hab
  · rw [List.pairwise_append]
    refine ⟨hdb, ?_, ?_⟩
    · by_cases hu : optTruthy userId = true
      · rw [if_pos hu]
        exact (hpin).sublist (List.filter_sublist _)
      · rw [if_neg hu]
        simp
    · intro a ha b hb
      intro hta htb heq
      have hbf := (List.mem_filter.mp hb).2
      rw [Bool.not_eq_true'] at hbf
      have hwit : ((optTruthy a.manatalId
          && jsEqOpt a.manatalId b.manatalId) || (a.id == b.id)) = true := by
        simp only [Bool.or_eq_true, Bool.and_eq_true]
        exact Or.inl ⟨hta, by simp [jsEqOpt, heq]⟩
      have hany : (db.any fun dbC =>
          (optTruthy dbC.manatalId && jsEqOpt dbC.manatalId b.manatalId)
            || (dbC.id == b.id)) = true :=
        List.any_eq_true.mpr ⟨a, ha, by rw [← heq] at hwit ⊢; exact hwit⟩
      rw [hany] at hbf
      simp at hbf

/-- C3 witness: a concrete DB list and pinned cache with distinct truthy
ATS ids combine to a list that satisfies the dedup invariant. -/
theorem c3_witness :
    NoDupExternalIds (getAllCombine [] (some "u")
      ⟨[("7", true)], [{ candBase "p" with manatalId := some "7" }]⟩
      [{ candBase "d" with manatalId := some "5" }]) := by
  apply c3_getAll_dedup
  · unfold NoDupExternalIds
    decide
  · unfold NoDupExternalIds
    decide

/-! ## Batch enrichment orchestrator (`handleBatchSearchContacts`)

The loop walks the displayed candidates strictly sequentially. Each
iteration appends exactly one log entry; candidates without a LinkedIn URL
are skipped before any lookup; a per-item failure (error result, thrown
lookup, or empty contact data) is logged and the loop continues; the
best-effort Manatal propagation's outcome is swallowed by `.catch`. -/

/-- Log entry categories (`BatchLog.type`). -/
inductive LogType
  | success
  | warning
  | error
  | info
  deriving DecidableEq, Repr

/-- A batch log entry (`BatchLog`). -/
structure BatchLogEntry where
  id : String
  candidateName : String
  message : String
  type : LogType
  timestamp : String
  deriving DecidableEq, Repr

/-- Outcome of one `lookupContactInfo` call as seen by the batch loop:
the promise rejected, or it resolved with a result record. -/
inductive BatchLookup
  | threw
  | ret (r : RRResult)

/-- Observables of a batch run: the log entries in order, the indices of
candidates for which a lookup was attempted, the progress reports, and the
best-effort ATS propagations attempted (index, succeeded?). -/
structure BatchOutcome where
  logs : List BatchLogEntry
  attempts : List Nat
  progressReports : List (Nat × Nat)
  atsUpdates : List (Nat × Bool)
  deriving Repr

/-- The single log entry produced for candidate `i` of the batch. -/
def batchLogFor (lookup : Nat → BatchLookup) (logUUID timeStr : Nat → String)
    (i : Nat) (candidate : Candidate) : BatchLogEntry :=
  if optTruthy candidate.linkedinUrl = false then
    ⟨logUUID i, candidate.name, "Skipped - No LinkedIn URL.", .warning, timeStr i⟩
  else
    match lookup i with
    | .threw => ⟨logUUID i, candidate.name, "Lookup error.", .error, timeStr i⟩
    | .ret result =>
        if optTruthy result.error then
          ⟨logUUID i, candidate.name, "Failed: " ++ jsOrOpt result.error "",
            .error, timeStr i⟩
        else if optTruthy result.email || optTruthy result.phone then
          ⟨logUUID i, candidate.name, "Success: Found Contact.", .success,
            timeStr i⟩
        else
          ⟨logUUID i, candidate.name, "No contact info found.", .warning,
            timeStr i⟩

/-- Recursive core of the batch loop, threading the candidate index. -/
def batchGo (lookup : Nat → BatchLookup) (upd : Nat → Except String Unit)
    (logUUID timeStr : Nat → String) (total : Nat) :
    Nat → List Candidate → BatchOutcome
  | _, [] => ⟨[], [], [], []⟩
  | i, candidate :: rest =>
      let r := batchGo lookup upd logUUID timeStr total (i + 1) rest
      let log := batchLogFor lookup logUUID timeStr i candidate
      if optTruthy candidate.linkedinUrl = false then
        ⟨log :: r.logs, r.attempts, (i + 1, total) :: r.progressReports,
          r.atsUpdates⟩
      else
        let atsUpdates :=
          match lookup i with
          | .threw => r.atsUpdates
          | .ret result =>
              if optTruthy result.error = false
                  && (optTruthy result.email || optTruthy result.phone)
                  && optTruthy candidate.manatalId then
                (i, match upd i with
                    | .ok _ => true
                    | .error _ => false) :: r.atsUpdates
              else r.atsUpdates
        ⟨log :: r.logs, i :: r.attempts, (i + 1, total) :: r.progressReports,
          atsUpdates⟩

/-- Embedding of `handleBatchSearchContacts` over the displayed targets. -/
def handleBatchSearchContacts (lookup : Nat → BatchLookup)
    (upd : Nat → Except String Unit) (logUUID timeStr : Nat → String)
    (targets : List Candidate) : BatchOutcome :=
  batchGo lookup upd logUUID timeStr targets.length 0 targets

theorem failed_msg_ne_skip (s : String) :
    (("Failed: " ++ s) == "Skipped - No LinkedIn URL.") = false := by
  rw [beq_eq_false_iff_ne]
  intro h
  have hd : ("Failed: " ++ s).data = "Skipped - No LinkedIn URL.".data :=
    congrArg String.data h
  rw [String.data_append] at hd
  simp at hd

theorem batchLogFor_msg_ne_skip (lookup : Nat → BatchLookup)
    (logUUID timeStr : Nat → String) (i : Nat) (c : Candidate)
    (hurl : optTruthy c.linkedinUrl = true) :
    ((batchLogFor lookup logUUID timeStr i c).message
      == "Skipped - No LinkedIn URL.") = false := by
  unfold batchLogFor
  rw [hurl, if_neg (by simp)]
  cases lookup i with
  | threw =>
      dsimp only
      decide
  | ret result =>
      dsimp only
      by_cases he : optTruthy result.error = true
      · rw [if_pos he]
        exact failed_msg_ne_skip _
      · rw [if_neg he]
        by_cases hc : (optTruthy result.email || optTruthy result.phone) = true
        · rw [if_pos hc]
          rfl
        · rw [if_neg hc]
          rfl

theorem enumFrom_getElem? (l : List Candidate) :
    ∀ i j : Nat, (l.enumFrom i)[j]? = (l[j]?).map fun a => (i + j, a) := by
  induction l with
  | nil => intro i j; simp
  | cons c rest ih =>
      intro i j
      cases j with
      | zero => simp [List.enumFrom]
      | succ n =>
          simp only [List.enumFrom, List.getElem?_cons_succ]
          rw [ih (i + 1) n, Nat.add_assoc, Nat.add_comm 1 n]

theorem batchGo_char (lookup : Nat → BatchLookup)
    (upd : Nat → Except String Unit) (logUUID timeStr : Nat → String)
    (total : Nat) :
    ∀ (l : List Candidate) (i : Nat),
      (batchGo lookup upd logUUID timeStr total i l).logs
        = (l.enumFrom i).map (fun p => batchLogFor lookup logUUID timeStr p.1 p.2) ∧
      (batchGo lookup upd logUUID timeStr total i l).attempts
        = ((l.enumFrom i).filter fun p => optTruthy p.2.linkedinUrl).map Prod.fst ∧
      (batchGo lookup upd logUUID timeStr total i l).progressReports
        = (l.enumFrom i).map fun p => (p.1 + 1, total) := by
  intro l
  induction l with
  | nil => intro i; refine ⟨rfl, rfl, rfl⟩
  | cons candidate rest ih =>
      intro i
      obtain ⟨ihL, ihA, ihP⟩ := ih (i + 1)
      by_cases hurl : optTruthy candidate.linkedinUrl = false
      · simp only [batchGo, hurl, if_pos rfl, List.enumFrom]
        refine ⟨?_, ?_, ?_⟩
        · simp [ihL]
        · rw [List.filter_cons_of_neg (by simp [hurl])]
          simp [ihA]
        · simp [ihP]
      · rw [Bool.not_eq_false] at hurl
        simp only [batchGo, hurl, List.enumFrom]
        rw [if_neg (by simp)]
        refine ⟨?_, ?_, ?_⟩
        · simp [ihL]
        · rw [List.filter_cons_of_pos (by simpa using hurl)]
          simp [ihA]
        · simp [ihP]

theorem batchGo_skip_count (lookup : Nat → BatchLookup)
    (upd : Nat → Except String Unit) (logUUID timeStr : Nat → String)
    (total : Nat) :
    ∀ (l : List Candidate) (i : Nat),
      (batchGo lookup upd logUUID timeStr total i l).logs.countP
          (fun lg => lg.message == "Skipped - No LinkedIn URL.")
        = l.countP fun c => !(optTruthy c.linkedinUrl) := by
  intro l
  induction l with
  | nil => intro i; rfl
  | cons candidate rest ih =>
      intro i
      by_cases hurl : optTruthy candidate.linkedinUrl = false
      · simp only [batchGo, hurl]
        rw [if_pos trivial]
        rw [List.countP_cons, List.countP_cons, ih (i + 1)]
        have hmsg : ((batchLogFor lookup logUUID timeStr i candidate).message
            == "Skipped - No LinkedIn URL.") = true := by
          unfold batchLogFor
          rw [hurl, if_pos rfl]
          rfl
        rw [hmsg, hurl]
        simp
      · rw [Bool.not_eq_false] at hurl
        simp only [batchGo, hurl]
        rw [if_neg (by simp)]
        rw [List.countP_cons, List.countP_cons, ih (i + 1)]
        rw [batchLogFor_msg_ne_skip lookup logUUID timeStr i candidate hurl, hurl]
        simp

/-- C6: the batch orchestrator walks its input strictly sequentially in
input order — the lookups attempted are exactly the indices of candidates
with a truthy `linkedinUrl`, in increasing order; every candidate produces
exactly one log entry (so the log list has the input's length); a candidate
lacking a LinkedIn URL gets the "Skipped" outcome and no lookup; the number
of "Skipped" log entries equals the number of URL-less candidates (exactly
one each); and the outcome of the best-effort ATS propagation oracle has no
influence on the logs, attempted lookups or progress — its failure is not
fatal and the remaining items are still processed. -/
theorem c6_batch (lookup : Nat → BatchLookup)
    (upd upd2 : Nat → Except String Unit) (logUUID timeStr : Nat → String)
    (targets : List Candidate) :
    ((handleBatchSearchContacts lookup upd logUUID timeStr targets).logs.length
      = targets.length) ∧
    ((handleBatchSearchContacts lookup upd logUUID timeStr targets).attempts
      = ((targets.enumFrom 0).filter fun p => optTruthy p.2.linkedinUrl).map
          Prod.fst) ∧
    (∀ (j : Nat) (c : Candidate), targets[j]? = some c →
      optTruthy c.linkedinUrl = false →
      ((handleBatchSearchContacts lookup upd logUUID timeStr targets).logs[j]?).map
          BatchLogEntry.message = some "Skipped - No LinkedIn URL.") ∧
    ((handleBatchSearchContacts lookup upd logUUID timeStr targets).logs.countP
        (fun lg => lg.message == "Skipped - No LinkedIn URL.")
      = targets.countP fun c => !(optTruthy c.linkedinUrl)) ∧
    ((handleBatchSearchContacts lookup upd2 logUUID timeStr targets).logs
        = (handleBatchSearchContacts lookup upd logUUID timeStr targets).logs ∧
      (handleBatchSearchContacts lookup upd2 logUUID timeStr targets).attempts
        = (handleBatchSearchContacts lookup upd logUUID timeStr targets).attempts ∧
      (handleBatchSearchContacts lookup upd2 logUUID timeStr targets).progressReports
        = (handleBatchSearchContacts lookup upd logUUID timeStr
            targets).progressReports) := by
  obtain ⟨hL, hA, hP⟩ :=
    batchGo_char lookup upd logUUID timeStr targets.length targets 0
  obtain ⟨hL2, hA2, hP2⟩ :=
    batchGo_char lookup upd2 logUUID timeStr targets.length targets 0
  refine ⟨?_, ?_, ?_, ?_, ?_, ?_, ?_⟩
  · rw [handleBatchSearchContacts, hL]
    simp [List.enumFrom_length]
  · rw [handleBatchSearchContacts, hA]
  · intro j c hj hurl
    rw [handleBatchSearchContacts, hL]
    rw [List.getElem?_map, enumFrom_getElem? targets 0 j]
    rw [hj]
    show some (batchLogFor lookup logUUID timeStr (0 + j) c).message = _
    unfold batchLogFor
    rw [hurl, if_pos rfl]
  · exact batchGo_skip_count lookup upd logUUID timeStr targets.length targets 0
  · rw [handleBatchSearchContacts, handleBatchSearchContacts, hL, hL2]
  · rw [handleBatchSearchContacts, handleBatchSearchContacts, hA, hA2]
  · rw [handleBatchSearchContacts, handleBatchSearchContacts, hP, hP2]

/-- C6 witness: of three candidates where the middle one lacks a LinkedIn
URL, the orchestrator attempts lookups for exactly the first and third in
input order, and the middle one receives the skipped outcome. -/
theorem c6_witness :
    (handleBatchSearchContacts (fun _ => .ret { email := some "e@x.com" })
        (fun _ => .ok ()) (fun n => "log-" ++ toString n) (fun _ => "t")
        [{ candBase "a" with linkedinUrl := some "https://li/a" },
          candBase "b",
          { candBase "c" with linkedinUrl := some "https://li/c" }]).attempts
      = [0, 2] ∧
    ((handleBatchSearchContacts (fun _ => .ret { email := some "e@x.com" })
        (fun _ => .ok ()) (fun n => "log-" ++ toString n) (fun _ => "t")
        [{ candBase "a" with linkedinUrl := some "https://li/a" },
          candBase "b",
          { candBase "c" with linkedinUrl := some "https://li/c" }]).logs[1]?).map
        BatchLogEntry.message = some "Skipped - No LinkedIn URL." := by
  have h := c6_batch (fun _ => .ret { email := some "e@x.com" })
    (fun _ => .ok ()) (fun _ => .ok ()) (fun n => "log-" ++ toString n)
    (fun _ => "t")
    [{ candBase "a" with linkedinUrl := some "https://li/a" },
      candBase "b",
      { candBase "c" with linkedinUrl := some "https://li/c" }]
  constructor
  · rw [h.2.1]
    decide
  · exact h.2.2.1 1 (candBase "b") (by decide) (by decide)

end Portal
